import Mathlib

/-!
Verification of the Compressor repository (src/compressor.py).

The development shallowly embeds the pure logic of the `FileCompressor`
class: path and filename manipulation, the dispatch loop of
`compress_files`, the two format handlers `compress_pdf` and
`compress_image` (with the external image/PDF libraries abstracted as
size oracles and term-level image/document constructors), the pre-run
validation of `start_compression`, and `format_file_size`.

Conventions:
- Python strings are Lean `String`s; the Python string helpers
  (`str.lower`, `str.replace`, `str.endswith`, `os.path.basename`,
  `pathlib.Path.suffix`, `os.path.join`) are re-implemented below on
  the character list of the string, following CPython semantics on the
  inputs the program feeds them (POSIX paths, ASCII case folding,
  non-empty replace patterns).
- The filesystem is an association list from path to a `FileEntry`
  holding the on-disk byte size and an abstract content.
- Decoding and encoding are delegated to libraries in the source; here
  decoding is the `FileContent` constructor of the entry, and the byte
  size of an encoded output is an oracle function passed as an
  argument to the handler.
- A Python float computation `(1 - compressed / original) * 100` is
  modelled over `ℚ`; the `ZeroDivisionError` it raises when
  `original = 0` is modelled by the explicit `originalSize = 0` test in
  `reportAfterWrite`, which aborts to the handler's `except` branch.
-/

/-- Python `str.lower` on one character, for the ASCII range used by the
program (file extensions). -/
def lowerChar (c : Char) : Char :=
  if 'A' ≤ c ∧ c ≤ 'Z' then Char.ofNat (c.toNat + 32) else c

/-- Python `str.lower`, ASCII range. -/
def pyLower (s : String) : String :=
  String.mk (s.toList.map lowerChar)

/-- Python `s.startswith(t)`. -/
def pyStartsWith (s t : String) : Bool :=
  t.toList.isPrefixOf s.toList

/-- Python `s.endswith(t)`. -/
def pyEndsWith (s t : String) : Bool :=
  t.toList.isSuffixOf s.toList

/-- Replacement loop of Python `str.replace`: scan left to right, on a
match of the (non-empty) pattern emit the replacement and skip the
pattern, otherwise emit one character and advance.  The fuel argument
only bounds the recursion; each step consumes at least one character,
so with fuel equal to the length of the string the fuel never runs
out and the function agrees with CPython for non-empty patterns (the
program only replaces the patterns ".heic" and ".heif"). -/
def replaceAux (pat rep : List Char) : Nat → List Char → List Char
  | _, [] => []
  | 0, s => s
  | fuel+1, c :: rest =>
    if pat ≠ [] ∧ pat.isPrefixOf (c :: rest) = true then
      rep ++ replaceAux pat rep fuel ((c :: rest).drop pat.length)
    else
      c :: replaceAux pat rep fuel rest

/-- Python `s.replace(pat, rep)` for non-empty `pat`. -/
def pyReplace (s pat rep : String) : String :=
  String.mk (replaceAux pat.toList rep.toList s.toList.length s.toList)

/-- Python `os.path.basename` on POSIX paths: the part after the last
slash. -/
def basename (p : String) : String :=
  String.mk (p.toList.foldl (fun acc c => if c = '/' then [] else acc ++ [c]) [])

/-- Index of the last dot of a character list (Python `str.rfind`). -/
def lastDotIndex (cs : List Char) : Option Nat :=
  ((List.range cs.length).filter (fun i => cs.getD i ' ' = '.')).getLast?

/-- Python `pathlib.Path(p).suffix`: on the final path component
`name`, the slice from the last dot, provided that dot is neither the
first nor the last character of `name`; otherwise the empty string.
For the slash-free or absolute file paths the program handles, the
final component agrees with `basename`. -/
def pySuffix (p : String) : String :=
  let name := (basename p).toList
  match lastDotIndex name with
  | some i => if 0 < i ∧ i < name.length - 1 then String.mk (name.drop i) else ""
  | none => ""

/-- Python `os.path.join(a, b)` on POSIX paths. -/
def pathJoin (a b : String) : String :=
  if pyStartsWith b "/" = true then b
  else if a = "" ∨ pyEndsWith a "/" = true then a ++ b
  else a ++ "/" ++ b

/-- Output filename computed by `compress_image` (src/compressor.py
lines 283-286): prefix the basename with "compressed_", and when the
lower-cased suffix of the input path is ".heic" or ".heif", apply the
two case-sensitive replaces of the source. -/
def computeImageOutputFilename (inputPath : String) : String :=
  let f := "compressed_" ++ basename inputPath
  if pyLower (pySuffix inputPath) = ".heic" ∨ pyLower (pySuffix inputPath) = ".heif" then
    pyReplace (pyReplace f ".heic" ".jpg") ".heif" ".jpg"
  else f

/-- Image extensions accepted by the dispatch loop (src/compressor.py
line 203). -/
def imageExtensions : List String :=
  [".jpg", ".jpeg", ".png", ".heic", ".heif", ".bmp", ".tiff", ".webp"]

/-- Classification of a lower-cased file extension by the dispatch loop
(src/compressor.py lines 201-208). -/
inductive FileKind
  | pdf
  | image
  | unsupported
deriving DecidableEq

/-- Extension test of the dispatch loop: ".pdf" routes to the PDF
handler, a member of `imageExtensions` routes to the image handler,
anything else is unsupported. -/
def classifyExt (ext : String) : FileKind :=
  if ext = ".pdf" then FileKind.pdf
  else if ext ∈ imageExtensions then FileKind.image
  else FileKind.unsupported

/-- Observable state accumulated by `compress_files`: the two counters,
the value of the determinate progress bar, and the status-text log
lines in emission order. -/
structure LoopState where
  compressed : Nat
  failed : Nat
  progress : Nat
  log : List String
deriving DecidableEq

/-- Tail of one loop iteration for a supported file (src/compressor.py
lines 210-223): branch on the handler outcome (`Except.error` stands
for an exception escaping the handler call, caught by the per-item
`except` block), bump exactly one counter, log the outcome line, and
then set the progress bar to the 1-based item index. -/
def finishItem (st : LoopState) (i : Nat) (result : Except String Bool) : LoopState :=
  let st1 :=
    match result with
    | Except.ok true =>
        { st with compressed := st.compressed + 1,
                  log := st.log ++ ["  ✓ Compressed successfully"] }
    | Except.ok false =>
        { st with failed := st.failed + 1,
                  log := st.log ++ ["  ✗ Compression failed"] }
    | Except.error e =>
        { st with failed := st.failed + 1,
                  log := st.log ++ ["  ✗ Error: " ++ e] }
  { st1 with progress := i + 1 }

/-- One iteration of the dispatch loop (src/compressor.py lines
193-223), parametric in the two handlers so that a handler may either
return its boolean or raise.  Note the `unsupported` branch mirrors the
source's `continue`: it logs and counts the failure but skips the
progress-bar update at the bottom of the loop body. -/
def compressStep (hp hi : String → Except String Bool) (st : LoopState)
    (item : Nat × String) : LoopState :=
  let i := item.1
  let file_path := item.2
  let filename := basename file_path
  let st1 := { st with log := st.log ++ ["Processing: " ++ filename] }
  let file_ext := pyLower (pySuffix file_path)
  match classifyExt file_ext with
  | FileKind.pdf => finishItem st1 i (hp file_path)
  | FileKind.image => finishItem st1 i (hi file_path)
  | FileKind.unsupported =>
      { st1 with failed := st1.failed + 1,
                 log := st1.log ++ ["  Unsupported file type: " ++ file_ext] }

/-- Main compression loop `compress_files` (src/compressor.py lines
182-228): initialize the progress bar and counters, fold the per-item
step over the enumerated file list, then append the completion
messages. -/
def compress_files (hp hi : String → Except String Bool) (files : List String) : LoopState :=
  let total := files.length
  let st0 : LoopState :=
    { compressed := 0, failed := 0, progress := 0,
      log := ["Starting compression of " ++ toString total ++ " files..."] }
  let st := List.foldl (compressStep hp hi) st0 files.enum
  { st with log := st.log ++
      ["\nCompression completed!",
       "Successfully compressed: " ++ toString st.compressed ++ " files",
       "Failed: " ++ toString st.failed ++ " files"] }

/-- Predicate for the items the loop counts as compressed: a supported
extension whose handler returns `True` without raising. -/
def itemSucceeds (hp hi : String → Except String Bool) (f : String) : Bool :=
  match classifyExt (pyLower (pySuffix f)) with
  | FileKind.pdf =>
      match hp f with
      | Except.ok true => true
      | _ => false
  | FileKind.image =>
      match hi f with
      | Except.ok true => true
      | _ => false
  | FileKind.unsupported => false

/-- Status line logged for a handler outcome. -/
def resultLine : Except String Bool → String
  | Except.ok true => "  ✓ Compressed successfully"
  | Except.ok false => "  ✗ Compression failed"
  | Except.error e => "  ✗ Error: " ++ e

/-- Log lines one item contributes: its "Processing:" line followed by
its outcome line. -/
def itemLines (hp hi : String → Except String Bool) (f : String) : List String :=
  ("Processing: " ++ basename f) ::
    (match classifyExt (pyLower (pySuffix f)) with
     | FileKind.pdf => [resultLine (hp f)]
     | FileKind.image => [resultLine (hi f)]
     | FileKind.unsupported => ["  Unsupported file type: " ++ pyLower (pySuffix f)])

/-- Log lines contributed by a list of items, in order. -/
def itemLogs (hp hi : String → Except String Bool) : List String → List String
  | [] => []
  | f :: fs => itemLines hp hi f ++ itemLogs hp hi fs

/-- Progress-bar value after processing the items of `files` whose
1-based indices start at `n + 1`, starting from value `p`: every
supported item (whether its handler succeeds, fails or raises) sets the
bar to its index, every unsupported item leaves it unchanged. -/
def progressAfter (n : Nat) (files : List String) (p : Nat) : Nat :=
  match files with
  | [] => p
  | f :: fs =>
      progressAfter (n + 1) fs
        (if classifyExt (pyLower (pySuffix f)) = FileKind.unsupported then p else n + 1)

/-- Observable outcome of `start_compression` (src/compressor.py lines
163-180): either a blocking warning dialog (identified by its title)
with no run, or the worker-thread run of `compress_files`. -/
structure StartResult where
  warning : Option String
  run : Option LoopState
deriving DecidableEq

/-- Pre-run validation and dispatch of `start_compression`: an empty
selection or an unset output directory each produce a blocking warning
and return before any work; otherwise the worker thread runs
`compress_files`. -/
def start_compression (hp hi : String → Except String Bool)
    (selectedFiles : List String) (outputDirectory : String) : StartResult :=
  if selectedFiles = [] then { warning := some "No Files", run := none }
  else if outputDirectory = "" then { warning := some "No Output Directory", run := none }
  else { warning := none, run := some (compress_files hp hi selectedFiles) }

/-- Page of a PDF document as the handler observes it: an abstract
content identifier plus the flag set by
`page.compress_content_streams()`. -/
structure PdfPage where
  content : Nat
  streamsCompressed : Bool
deriving DecidableEq

/-- Effect of `page.compress_content_streams()` (src/compressor.py line
252): re-encode the page's content streams in place; content is
preserved up to that lossless re-encoding. -/
def compressContentStreams (p : PdfPage) : PdfPage :=
  { p with streamsCompressed := true }

/-- State of the `pypdf.PdfWriter` when it is written to disk: the
appended pages plus the two optional whole-document requests
`compress_identical_objects()` and `remove_duplicates()`. -/
structure PdfWriterDoc where
  pages : List PdfPage
  identicalObjectsCompressed : Bool
  duplicatesRemoved : Bool
deriving DecidableEq

/-- Page loop of `compress_pdf` (src/compressor.py lines 251-253): for
each reader page in order, compress its content streams and append it
to the writer. -/
def addPages (pages : List PdfPage) (writer : List PdfPage) : List PdfPage :=
  pages.foldl (fun w p => w ++ [compressContentStreams p]) writer

/-- Color modes the image handler distinguishes (src/compressor.py
lines 293-301); `other` covers every remaining PIL mode (L, CMYK,
...). -/
inductive ImgMode
  | RGB
  | RGBA
  | LA
  | P
  | other
deriving DecidableEq

/-- In-memory image as a term recording the PIL operations applied to
the decoded source image: `convert` is `img.convert(mode)`,
`pastedOnWhite` is the composite of the image onto an opaque white RGB
background via its alpha channel, `exifTransposed` is
`ImageOps.exif_transpose`. -/
inductive Img
  | source (id : Nat) (mode : ImgMode)
  | convert (img : Img) (target : ImgMode)
  | pastedOnWhite (img : Img)
  | exifTransposed (img : Img)
deriving DecidableEq

/-- Mode of an image term. -/
def Img.mode : Img → ImgMode
  | Img.source _ m => m
  | Img.convert _ m => m
  | Img.pastedOnWhite _ => ImgMode.RGB
  | Img.exifTransposed i => i.mode

/-- Color-mode normalization of `compress_image` (src/compressor.py
lines 293-301): paletted or alpha-bearing modes are composited onto a
white background (paletted images are first expanded to RGBA), any
other non-RGB mode is converted directly to RGB, RGB images pass
through. -/
def normalizeMode (img : Img) : Img :=
  if img.mode = ImgMode.RGBA ∨ img.mode = ImgMode.LA ∨ img.mode = ImgMode.P then
    let img1 := if img.mode = ImgMode.P then Img.convert img ImgMode.RGBA else img
    Img.pastedOnWhite img1
  else if img.mode ≠ ImgMode.RGB then Img.convert img ImgMode.RGB
  else img

/-- Output format passed to `img.save`. -/
inductive ImgFormat
  | png
  | jpeg
deriving DecidableEq

/-- Content of a file in the modelled filesystem.  `pdfFile` and
`imageFile` are inputs that the respective library decodes
successfully; `pdfWritten` and `imageWritten` record exactly the
document and save call the handlers produce; `otherFile` is anything
the libraries fail to decode (the library raises, the handler's
`except` turns that into a `False` return). -/
inductive FileContent
  | pdfFile (pages : List PdfPage)
  | imageFile (img : Img)
  | pdfWritten (doc : PdfWriterDoc)
  | imageWritten (img : Img) (fmt : ImgFormat) (quality : Option Nat) (optimize : Bool)
  | otherFile
deriving DecidableEq

/-- File on disk: reported byte size (`os.path.getsize`) and content. -/
structure FileEntry where
  size : Nat
  data : FileContent
deriving DecidableEq

/-- Modelled filesystem: association list from path to entry, newest
write first. -/
def FS : Type := List (String × FileEntry)

/-- Read the entry at a path. -/
def lookupFS (fs : FS) (p : String) : Option FileEntry :=
  (List.find? (fun q => q.1 = p) fs).map (fun q => q.2)

/-- Write (create or overwrite) the entry at a path. -/
def writeFS (fs : FS) (p : String) (e : FileEntry) : FS :=
  (p, e) :: fs

/-- Python `os.path.getsize`. -/
def getSize (fs : FS) (p : String) : Option Nat :=
  (lookupFS fs p).map (fun e => e.size)

/-- Result of one handler call: the returned boolean, the filesystem
after the call, and the size-reduction percentage the handler logged
(`none` when the handler failed before logging it). -/
structure HandlerResult where
  success : Bool
  fs : FS
  reported : Option ℚ

/-- Size check shared verbatim by both handlers (src/compressor.py
lines 266-274 and 315-323): read both sizes from disk after the write,
compute `(1 - compressed / original) * 100` and log it, return `True`.
A missing file makes `os.path.getsize` raise, and `original = 0` makes
the division raise `ZeroDivisionError`; either exception lands in the
handler's `except` branch, which returns `False` and leaves the
filesystem as it is. -/
def reportAfterWrite (fs1 : FS) (inputPath outputPath : String) : HandlerResult :=
  match getSize fs1 inputPath, getSize fs1 outputPath with
  | some originalSize, some compressedSize =>
      if originalSize = 0 then { success := false, fs := fs1, reported := none }
      else
        { success := true, fs := fs1,
          reported := some ((1 - (compressedSize : ℚ) / (originalSize : ℚ)) * 100) }
  | _, _ => { success := false, fs := fs1, reported := none }

/-- PDF handler `compress_pdf` (src/compressor.py lines 238-278),
parametric in the byte size `pdfEncSize` that `writer.write` produces
for a given writer state.  Opening a missing file or decoding a
non-PDF raises inside the `try`, so the handler returns `False` and
the filesystem is untouched. -/
def compress_pdf (pdfEncSize : PdfWriterDoc → Nat) (outputDirectory : String)
    (level : Nat) (fs : FS) (inputPath : String) : HandlerResult :=
  let output_path := pathJoin outputDirectory ("compressed_" ++ basename inputPath)
  match lookupFS fs inputPath with
  | none => { success := false, fs := fs, reported := none }
  | some entry =>
    match entry.data with
    | FileContent.pdfFile pages =>
        let writer0 : PdfWriterDoc :=
          { pages := addPages pages [],
            identicalObjectsCompressed := false, duplicatesRemoved := false }
        let writer1 :=
          if 2 ≤ level then { writer0 with identicalObjectsCompressed := true } else writer0
        let writer2 :=
          if 3 ≤ level then { writer1 with duplicatesRemoved := true } else writer1
        let fs1 := writeFS fs output_path
          { size := pdfEncSize writer2, data := FileContent.pdfWritten writer2 }
        reportAfterWrite fs1 inputPath output_path
    | _ => { success := false, fs := fs, reported := none }

/-- Image handler `compress_image` (src/compressor.py lines 280-327),
parametric in the byte size `imgEncSize` that `img.save` produces for
a given image, format, quality and optimize flag.  The save call uses
PNG with the quality ignored when the computed output filename ends in
".png" case-insensitively, and JPEG at the configured quality
otherwise; optimization is enabled in both branches. -/
def compress_image (imgEncSize : Img → ImgFormat → Option Nat → Bool → Nat)
    (outputDirectory : String) (quality : Nat) (fs : FS) (inputPath : String) :
    HandlerResult :=
  let output_filename := computeImageOutputFilename inputPath
  let output_path := pathJoin outputDirectory output_filename
  match lookupFS fs inputPath with
  | none => { success := false, fs := fs, reported := none }
  | some entry =>
    match entry.data with
    | FileContent.imageFile img0 =>
        let img1 := normalizeMode img0
        let img2 := Img.exifTransposed img1
        let call : ImgFormat × Option Nat :=
          if pyEndsWith (pyLower output_filename) ".png" = true then (ImgFormat.png, none)
          else (ImgFormat.jpeg, some quality)
        let fs1 := writeFS fs output_path
          { size := imgEncSize img2 call.1 call.2 true,
            data := FileContent.imageWritten img2 call.1 call.2 true }
        reportAfterWrite fs1 inputPath output_path
    | _ => { success := false, fs := fs, reported := none }

/-- Unit names used by `format_file_size` (src/compressor.py line
334). -/
def sizeNames : List String :=
  ["B", "KB", "MB", "GB"]

/-- Division loop of `format_file_size` (src/compressor.py lines
335-338): divide by 1024 while the value is at least 1024 and a larger
unit exists.  The divisions are by a power of two, so over the sizes
the program meets the rational value coincides with the Python float
value. -/
def fsLoop (s : ℚ) (i : Nat) : ℚ × Nat :=
  if h : 1024 ≤ s ∧ i < 3 then fsLoop (s / 1024) (i + 1) else (s, i)
termination_by 3 - i
decreasing_by omega

/-- Banker's rounding of a rational to an integer, as Python's float
formatting applies to the exact value of the float. -/
def roundHalfEven (q : ℚ) : ℤ :=
  let f : ℤ := q.floor
  let r : ℚ := q - (f : ℚ)
  if r < 1/2 then f
  else if (1/2 : ℚ) < r then f + 1
  else if f % 2 = 0 then f else f + 1

/-- Python `f"{x:.1f}"` for the non-negative values `format_file_size`
produces: one digit after the decimal point, rounding half to even. -/
def formatOneDecimal (q : ℚ) : String :=
  let t : Nat := (roundHalfEven (10 * q)).toNat
  toString (t / 10) ++ "." ++ toString (t % 10)

/-- Human-readable size formatting `format_file_size` (src/compressor.py
lines 329-340). -/
def format_file_size (n : Nat) : String :=
  if n = 0 then "0 B"
  else
    let r := fsLoop ((n : ℚ)) 0
    formatOneDecimal r.1 ++ (" " ++ sizeNames.getD r.2 "")

/-- Unit the specification prescribes for a byte count: B below 1024,
then KB, MB, GB for each successive factor of 1024, never past GB.
This definition follows the spec's words, to be compared against the
unit `format_file_size` actually selects. -/
def specFileSizeUnit (n : Nat) : String :=
  if n < 1024 then "B"
  else if n < 1024 * 1024 then "KB"
  else if n < 1024 * 1024 * 1024 then "MB"
  else "GB"

/-! Helper lemmas. -/

/-- A list is a Boolean prefix of itself followed by anything. -/
theorem isPrefixOf_self_append (l t : List Char) : List.isPrefixOf l (l ++ t) = true := by
  induction l with
  | nil => simp [List.isPrefixOf]
  | cons c cs ih => simp [List.isPrefixOf, ih]

/-- Appending a string on the left preserves a trailing match. -/
theorem pyEndsWith_append (a b : String) : pyEndsWith (a ++ b) b = true := by
  show List.isSuffixOf b.data (a ++ b).data = true
  rw [String.data_append]
  show List.isPrefixOf b.data.reverse (a.data ++ b.data).reverse = true
  rw [List.reverse_append]
  exact isPrefixOf_self_append _ _

/-- Reading back the path just written. -/
theorem lookupFS_writeFS_self (fs : FS) (p : String) (e : FileEntry) :
    lookupFS (writeFS fs p e) p = some e := by
  simp [lookupFS, writeFS, List.find?]

/-- Writing one path does not affect reads of another. -/
theorem lookupFS_writeFS_other (fs : FS) (p q : String) (e : FileEntry) (h : q ≠ p) :
    lookupFS (writeFS fs p e) q = lookupFS fs q := by
  simp only [lookupFS, writeFS, List.find?]
  rw [decide_eq_false (Ne.symm h)]

/-- The filesystem a handler returns from its final size check is the
one it was given. -/
theorem reportAfterWrite_fs (fs1 : FS) (a b : String) :
    (reportAfterWrite fs1 a b).fs = fs1 := by
  unfold reportAfterWrite
  rcases getSize fs1 a with _ | o <;> rcases getSize fs1 b with _ | c <;> simp
  split <;> rfl

/-- The page loop appends the stream-compressed reader pages, in
order, to whatever the writer already holds. -/
theorem addPages_eq (pages : List PdfPage) (writer : List PdfPage) :
    addPages pages writer = writer ++ pages.map compressContentStreams := by
  induction pages generalizing writer with
  | nil => simp [addPages]
  | cons p ps ih =>
      show addPages ps (writer ++ [compressContentStreams p]) = _
      rw [ih]
      simp

/-- Componentwise description of one dispatch-loop iteration: exactly
one counter is bumped, the item's log lines are appended, and the
progress bar is set to the 1-based index unless the item was
unsupported (the source's `continue` skips the update). -/
theorem compressStep_fields (hp hi : String → Except String Bool) (st : LoopState)
    (n : Nat) (f : String) :
    compressStep hp hi st (n, f) =
      { compressed := st.compressed + (if itemSucceeds hp hi f then 1 else 0),
        failed := st.failed + (if itemSucceeds hp hi f then 0 else 1),
        progress :=
          if classifyExt (pyLower (pySuffix f)) = FileKind.unsupported then st.progress
          else n + 1,
        log := st.log ++ itemLines hp hi f } := by
  cases hcl : classifyExt (pyLower (pySuffix f)) with
  | pdf =>
      cases hr : hp f with
      | error e =>
          simp [compressStep, itemSucceeds, itemLines, resultLine, finishItem, hcl, hr]
      | ok b =>
          cases b <;>
            simp [compressStep, itemSucceeds, itemLines, resultLine, finishItem, hcl, hr]
  | image =>
      cases hr : hi f with
      | error e =>
          simp [compressStep, itemSucceeds, itemLines, resultLine, finishItem, hcl, hr]
      | ok b =>
          cases b <;>
            simp [compressStep, itemSucceeds, itemLines, resultLine, finishItem, hcl, hr]
  | unsupported =>
      simp [compressStep, itemSucceeds, itemLines, hcl]

/-- Full description of the dispatch loop's fold over the enumerated
items: counters become counts over the item list, the log grows by the
per-item lines in order, and the progress bar follows
`progressAfter`. -/
theorem foldl_compressStep (hp hi : String → Except String Bool) :
    ∀ (files : List String) (n : Nat) (st : LoopState),
    List.foldl (compressStep hp hi) st (List.enumFrom n files) =
      { compressed := st.compressed + files.countP (fun f => itemSucceeds hp hi f),
        failed := st.failed + files.countP (fun f => !(itemSucceeds hp hi f)),
        progress := progressAfter n files st.progress,
        log := st.log ++ itemLogs hp hi files } := by
  intro files
  induction files with
  | nil =>
      intro n st
      simp [List.enumFrom, progressAfter, itemLogs]
  | cons f fs ih =>
      intro n st
      show List.foldl (compressStep hp hi) st ((n, f) :: List.enumFrom (n + 1) fs) = _
      rw [List.foldl_cons, compressStep_fields, ih]
      simp only [LoopState.mk.injEq]
      refine ⟨?_, ?_, ?_, ?_⟩
      · rcases hs : itemSucceeds hp hi f <;>
          simp [List.countP_cons, hs] <;> omega
      · rcases hs : itemSucceeds hp hi f <;>
          simp [List.countP_cons, hs] <;> omega
      · simp [progressAfter]
      · simp [itemLogs]

/-- Every item of the list contributes its "Processing:" line to the
item logs. -/
theorem processing_line_mem (hp hi : String → Except String Bool) :
    ∀ (files : List String) (f : String), f ∈ files →
      ("Processing: " ++ basename f) ∈ itemLogs hp hi files := by
  intro files
  induction files with
  | nil => intro f hf; cases hf
  | cons g gs ih =>
      intro f hf
      rcases List.mem_cons.mp hf with h | h
      · subst h
        exact List.mem_append.mpr (Or.inl (List.mem_cons_self _ _))
      · exact List.mem_append.mpr (Or.inr (ih f h))

/-- Counters, progress and log of a whole run, by instantiating the
fold description at the initial state. -/
theorem compress_files_eq (hp hi : String → Except String Bool) (files : List String) :
    compress_files hp hi files =
      { compressed := files.countP (fun f => itemSucceeds hp hi f),
        failed := files.countP (fun f => !(itemSucceeds hp hi f)),
        progress := progressAfter 0 files 0,
        log := ("Starting compression of " ++ toString files.length ++ " files...") ::
          (itemLogs hp hi files ++
            ["\nCompression completed!",
             "Successfully compressed: " ++
               toString (files.countP (fun f => itemSucceeds hp hi f)) ++ " files",
             "Failed: " ++
               toString (files.countP (fun f => !(itemSucceeds hp hi f))) ++ " files"]) } := by
  unfold compress_files
  simp only [List.enum, foldl_compressStep]
  simp

/-! Claim theorems. -/

/-- C1: the claim states that every input whose extension is `.heic` or
`.heif`, compared case-insensitively, is written under a filename whose
extension is `.jpg`.  Evaluating the embedded filename computation of
`compress_image` on the input "/photos/IMG.HEIC" refutes this: the
lower-cased suffix ".heic" does select the HEIC branch, but the two
case-sensitive replaces find no lower-case ".heic" to rewrite, so the
output filename keeps the upper-case ".HEIC" extension even though the
pixel data is saved as JPEG. -/
theorem C1_heic_uppercase_keeps_extension :
    pyLower (pySuffix "/photos/IMG.HEIC") = ".heic" ∧
    computeImageOutputFilename "/photos/IMG.HEIC" = "compressed_IMG.HEIC" ∧
    pySuffix (computeImageOutputFilename "/photos/IMG.HEIC") = ".HEIC" ∧
    pyLower (pySuffix (computeImageOutputFilename "/photos/IMG.HEIC")) ≠ ".jpg" := by
  refine ⟨by decide, by decide, by decide, by decide⟩

/-- C4: whatever the two handlers do on each item — return `True`,
return `False`, or raise — the dispatch loop emits the full per-item
log in order for the whole file list, every selected file gets its
"Processing:" line, the failure counter counts exactly the items whose
handling did not succeed (unsupported extension, handler `False`, or
exception caught at the per-item boundary), and the run always ends
with the final tally lines. -/
theorem C4_per_item_error_isolation (hp hi : String → Except String Bool)
    (files : List String) :
    (compress_files hp hi files).log =
      ("Starting compression of " ++ toString files.length ++ " files...") ::
        (itemLogs hp hi files ++
          ["\nCompression completed!",
           "Successfully compressed: " ++
             toString (compress_files hp hi files).compressed ++ " files",
           "Failed: " ++ toString (compress_files hp hi files).failed ++ " files"]) ∧
    (∀ f ∈ files, ("Processing: " ++ basename f) ∈ (compress_files hp hi files).log) ∧
    (compress_files hp hi files).failed =
      files.countP (fun f => !(itemSucceeds hp hi f)) := by
  rw [compress_files_eq]
  refine ⟨rfl, ?_, rfl⟩
  intro f hf
  exact List.mem_cons.mpr (Or.inr (List.mem_append.mpr
    (Or.inl (processing_line_mem hp hi files f hf))))

/-- Witness for C4 at a concrete run: one PDF whose handler raises and
one unsupported file; the raising item still leaves its "Processing:"
line and both failures are counted. -/
theorem C4_per_item_error_isolation_witness :
    ("Processing: " ++ basename "/docs/a.pdf") ∈
      (compress_files (fun _ => Except.error "boom") (fun _ => Except.ok true)
        ["/docs/a.pdf", "/docs/b.txt"]).log ∧
    (compress_files (fun _ => Except.error "boom") (fun _ => Except.ok true)
        ["/docs/a.pdf", "/docs/b.txt"]).failed =
      List.countP
        (fun f => !(itemSucceeds (fun _ => Except.error "boom") (fun _ => Except.ok true) f))
        ["/docs/a.pdf", "/docs/b.txt"] :=
  ⟨(C4_per_item_error_isolation (fun _ => Except.error "boom") (fun _ => Except.ok true)
      ["/docs/a.pdf", "/docs/b.txt"]).2.1 "/docs/a.pdf" (by decide),
   (C4_per_item_error_isolation (fun _ => Except.error "boom") (fun _ => Except.ok true)
      ["/docs/a.pdf", "/docs/b.txt"]).2.2⟩

/-- C5 counterexample: the claim states that after every item,
including unsupported ones, the progress indicator is updated to the
item's index over the total.  A run over the single unsupported file
"notes.txt" ends with the progress bar still at 0, not at 1, because
the `continue` in the unsupported branch skips the update. -/
theorem C5_unsupported_item_no_progress_update :
    (compress_files (fun _ => Except.ok true) (fun _ => Except.ok true)
        ["notes.txt"]).progress = 0 ∧
    ¬ ((compress_files (fun _ => Except.ok true) (fun _ => Except.ok true)
        ["notes.txt"]).progress = ["notes.txt"].length) := by
  refine ⟨by decide, by decide⟩

/-- C5 as amended: every item gets its "Processing:" log line, and the
numeric progress indicator is set to (current index)/(total) for items
with a supported extension — for an unsupported item the indicator is
left at its previous value. -/
theorem C5_progress_update_only_for_supported (hp hi : String → Except String Bool)
    (i : Nat) (f : String) (st : LoopState) :
    (compressStep hp hi st (i, f)).progress =
      (if classifyExt (pyLower (pySuffix f)) = FileKind.unsupported then st.progress
       else i + 1) ∧
    ("Processing: " ++ basename f) ∈ (compressStep hp hi st (i, f)).log := by
  rw [compressStep_fields]
  exact ⟨rfl, List.mem_append.mpr (Or.inr (List.mem_cons_self _ _))⟩

/-- C7: a run begins only when at least one file is selected and an
output directory is chosen; when either precondition fails a blocking
warning is shown instead and no run is started. -/
theorem C7_start_preconditions (hp hi : String → Except String Bool)
    (files : List String) (outDir : String) :
    ((start_compression hp hi files outDir).run.isSome = true ↔
      files ≠ [] ∧ outDir ≠ "") ∧
    (files = [] → start_compression hp hi files outDir =
      { warning := some "No Files", run := none }) ∧
    (files ≠ [] → outDir = "" → start_compression hp hi files outDir =
      { warning := some "No Output Directory", run := none }) ∧
    ((start_compression hp hi files outDir).warning.isSome = true →
      (start_compression hp hi files outDir).run = none) := by
  unfold start_compression
  by_cases h1 : files = [] <;> by_cases h2 : outDir = "" <;> simp [h1, h2]

/-- Witness for C7 at a concrete input: empty selection with a chosen
output directory produces the "No Files" warning and no run. -/
theorem C7_start_preconditions_witness :
    start_compression (fun _ => Except.ok true) (fun _ => Except.ok true) [] "/out" =
      { warning := some "No Files", run := none } :=
  (C7_start_preconditions (fun _ => Except.ok true) (fun _ => Except.ok true)
    [] "/out").2.1 rfl

/-- C9: at the end of every run the two counters partition the selected
files: compressed plus failed equals the total, since every item bumps
exactly one of them exactly once, whatever its outcome. -/
theorem C9_counts_partition (hp hi : String → Except String Bool) (files : List String) :
    (compress_files hp hi files).compressed + (compress_files hp hi files).failed =
      files.length := by
  rw [compress_files_eq]
  show files.countP _ + files.countP _ = files.length
  have hneg : (fun f => !(itemSucceeds hp hi f)) =
      (fun f => decide ¬(itemSucceeds hp hi f = true)) := by
    funext f
    cases itemSucceeds hp hi f <;> rfl
  rw [hneg, ← List.length_eq_countP_add_countP (fun f => itemSucceeds hp hi f)]

/-- Size of the file just written. -/
theorem getSize_writeFS_self (fs : FS) (p : String) (e : FileEntry) :
    getSize (writeFS fs p e) p = some e.size := by
  simp [getSize, lookupFS_writeFS_self]

/-- Size of an untouched file after a write elsewhere. -/
theorem getSize_writeFS_other (fs : FS) (p q : String) (e : FileEntry) (h : q ≠ p) :
    getSize (writeFS fs p e) q = getSize fs q := by
  simp [getSize, lookupFS_writeFS_other fs p q e h]

/-- C2: for every PDF input and every compression level 1, 2 or 3, the
document `compress_pdf` writes holds exactly the source pages with
content-stream compression invoked on each, in source order with the
page count unchanged, and it carries the identical-object compression
request exactly when the level is at least 2 and the duplicate-removal
request exactly when the level is at least 3. -/
theorem C2_pdf_pipeline (pdfEncSize : PdfWriterDoc → Nat) (outputDirectory : String)
    (level : Nat) (fs : FS) (inputPath : String) (entry : FileEntry)
    (pages : List PdfPage)
    (hlook : lookupFS fs inputPath = some entry)
    (hdata : entry.data = FileContent.pdfFile pages)
    (hlevel : level = 1 ∨ level = 2 ∨ level = 3) :
    ∃ doc : PdfWriterDoc,
      lookupFS (compress_pdf pdfEncSize outputDirectory level fs inputPath).fs
          (pathJoin outputDirectory ("compressed_" ++ basename inputPath)) =
        some { size := pdfEncSize doc, data := FileContent.pdfWritten doc } ∧
      doc.pages = pages.map compressContentStreams ∧
      doc.pages.length = pages.length ∧
      (doc.identicalObjectsCompressed = true ↔ 2 ≤ level) ∧
      (doc.duplicatesRemoved = true ↔ 3 ≤ level) := by
  simp only [compress_pdf, hlook, hdata]
  rw [reportAfterWrite_fs]
  refine ⟨_, lookupFS_writeFS_self _ _ _, ?_, ?_, ?_, ?_⟩ <;>
    by_cases h2 : 2 ≤ level <;> by_cases h3 : 3 ≤ level <;>
      simp [h2, h3, addPages_eq]

/-- Witness for C2: a two-page PDF at level 2 with a constant size
oracle. -/
theorem C2_pdf_pipeline_witness :
    ∃ doc : PdfWriterDoc,
      lookupFS (compress_pdf (fun _ => 3) "/out" 2
          [("/in/b.pdf", (⟨7, FileContent.pdfFile [⟨1, false⟩, ⟨2, false⟩]⟩ : FileEntry))]
          "/in/b.pdf").fs
          (pathJoin "/out" ("compressed_" ++ basename "/in/b.pdf")) =
        some { size := (fun (_ : PdfWriterDoc) => 3) doc,
               data := FileContent.pdfWritten doc } ∧
      doc.pages = List.map compressContentStreams
        [(⟨1, false⟩ : PdfPage), (⟨2, false⟩ : PdfPage)] ∧
      doc.pages.length = List.length [(⟨1, false⟩ : PdfPage), (⟨2, false⟩ : PdfPage)] ∧
      (doc.identicalObjectsCompressed = true ↔ 2 ≤ 2) ∧
      (doc.duplicatesRemoved = true ↔ 3 ≤ 2) :=
  C2_pdf_pipeline (fun _ => 3) "/out" 2
    [("/in/b.pdf", (⟨7, FileContent.pdfFile [⟨1, false⟩, ⟨2, false⟩]⟩ : FileEntry))]
    "/in/b.pdf" ⟨7, FileContent.pdfFile [⟨1, false⟩, ⟨2, false⟩]⟩
    [⟨1, false⟩, ⟨2, false⟩]
    (by decide) rfl (Or.inr (Or.inl rfl))

/-- C6: on any decodable image input, `compress_image` writes to the
computed output path a save call that is PNG with optimization and no
quality parameter when the computed output filename ends in ".png"
case-insensitively, and JPEG at the configured quality with
optimization otherwise. -/
theorem C6_encoding_choice (imgEncSize : Img → ImgFormat → Option Nat → Bool → Nat)
    (outputDirectory : String) (quality : Nat) (fs : FS) (inputPath : String)
    (entry : FileEntry) (img : Img)
    (hlook : lookupFS fs inputPath = some entry)
    (hdata : entry.data = FileContent.imageFile img) :
    ∃ (fmt : ImgFormat) (q : Option Nat),
      lookupFS (compress_image imgEncSize outputDirectory quality fs inputPath).fs
          (pathJoin outputDirectory (computeImageOutputFilename inputPath)) =
        some { size := imgEncSize (Img.exifTransposed (normalizeMode img)) fmt q true,
               data := FileContent.imageWritten
                 (Img.exifTransposed (normalizeMode img)) fmt q true } ∧
      (pyEndsWith (pyLower (computeImageOutputFilename inputPath)) ".png" = true →
        fmt = ImgFormat.png ∧ q = none) ∧
      (pyEndsWith (pyLower (computeImageOutputFilename inputPath)) ".png" = false →
        fmt = ImgFormat.jpeg ∧ q = some quality) := by
  simp only [compress_image, hlook, hdata]
  rw [reportAfterWrite_fs]
  by_cases hpng : pyEndsWith (pyLower (computeImageOutputFilename inputPath)) ".png" = true
  · refine ⟨ImgFormat.png, none, ?_, fun _ => ⟨rfl, rfl⟩, fun hf => absurd hpng (by simp [hf])⟩
    simp only [hpng, if_pos]
    exact lookupFS_writeFS_self _ _ _
  · refine ⟨ImgFormat.jpeg, some quality, ?_, fun ht => absurd ht hpng, fun _ => ⟨rfl, rfl⟩⟩
    simp only [hpng, if_neg]
    exact lookupFS_writeFS_self _ _ _

/-- Witness for C6: a PNG input; the computed filename ends in ".png",
so the save call is PNG with no quality. -/
theorem C6_encoding_choice_witness :
    ∃ (fmt : ImgFormat) (q : Option Nat),
      lookupFS (compress_image (fun _ _ _ _ => 4) "/out" 80
          [("/in/a.png",
            (⟨10, FileContent.imageFile (Img.source 0 ImgMode.RGB)⟩ : FileEntry))]
          "/in/a.png").fs
          (pathJoin "/out" (computeImageOutputFilename "/in/a.png")) =
        some { size := (fun (_ : Img) (_ : ImgFormat) (_ : Option Nat) (_ : Bool) => 4)
                 (Img.exifTransposed (normalizeMode (Img.source 0 ImgMode.RGB))) fmt q true,
               data := FileContent.imageWritten
                 (Img.exifTransposed (normalizeMode (Img.source 0 ImgMode.RGB))) fmt q true } ∧
      (pyEndsWith (pyLower (computeImageOutputFilename "/in/a.png")) ".png" = true →
        fmt = ImgFormat.png ∧ q = none) ∧
      (pyEndsWith (pyLower (computeImageOutputFilename "/in/a.png")) ".png" = false →
        fmt = ImgFormat.jpeg ∧ q = some 80) :=
  C6_encoding_choice (fun _ _ _ _ => 4) "/out" 80
    [("/in/a.png", (⟨10, FileContent.imageFile (Img.source 0 ImgMode.RGB)⟩ : FileEntry))]
    "/in/a.png" ⟨10, FileContent.imageFile (Img.source 0 ImgMode.RGB)⟩
    (Img.source 0 ImgMode.RGB) (by decide) rfl

/-- Outcome of the shared size check when both files exist and the
input size is positive. -/
theorem reportAfterWrite_pos (fs1 : FS) (ip op : String) (o c : Nat)
    (ho : getSize fs1 ip = some o) (hc : getSize fs1 op = some c) (hpos : 0 < o) :
    reportAfterWrite fs1 ip op =
      { success := true, fs := fs1,
        reported := some ((1 - (c : ℚ) / (o : ℚ)) * 100) } := by
  unfold reportAfterWrite
  rw [ho, hc]
  have hne0 : o ≠ 0 := by omega
  simp [hne0]

/-- Outcome of the shared size check when both files exist but the
input size reads as zero: the division raises `ZeroDivisionError` and
the handler fails. -/
theorem reportAfterWrite_zero (fs1 : FS) (ip op : String) (c : Nat)
    (ho : getSize fs1 ip = some 0) (hc : getSize fs1 op = some c) :
    reportAfterWrite fs1 ip op = { success := false, fs := fs1, reported := none } := by
  unfold reportAfterWrite
  rw [ho, hc]
  simp

/-- A reduction percentage computed from a larger output is negative. -/
theorem reduction_neg (o c : Nat) (h0 : 0 < o) (h : o < c) :
    (1 - (c : ℚ) / (o : ℚ)) * 100 < 0 := by
  have h1 : (1 : ℚ) < (c : ℚ) / (o : ℚ) :=
    (one_lt_div (by exact_mod_cast h0)).mpr (by exact_mod_cast h)
  have h2 : (1 : ℚ) - (c : ℚ) / (o : ℚ) < 0 := by linarith
  exact mul_neg_of_neg_of_pos h2 (by norm_num)

/-- On a decodable image input, `compress_image` is the shared size
check applied after writing one entry at the computed output path. -/
theorem compress_image_write (imgEncSize : Img → ImgFormat → Option Nat → Bool → Nat)
    (outputDirectory : String) (quality : Nat) (fs : FS) (inputPath : String)
    (entry : FileEntry) (img : Img)
    (hlook : lookupFS fs inputPath = some entry)
    (hdata : entry.data = FileContent.imageFile img) :
    ∃ e : FileEntry,
      compress_image imgEncSize outputDirectory quality fs inputPath =
        reportAfterWrite
          (writeFS fs (pathJoin outputDirectory (computeImageOutputFilename inputPath)) e)
          inputPath (pathJoin outputDirectory (computeImageOutputFilename inputPath)) := by
  simp only [compress_image, hlook, hdata]
  exact ⟨_, rfl⟩

/-- On a decodable PDF input, `compress_pdf` is the shared size check
applied after writing one entry at the computed output path. -/
theorem compress_pdf_write (pdfEncSize : PdfWriterDoc → Nat) (outputDirectory : String)
    (level : Nat) (fs : FS) (inputPath : String) (entry : FileEntry)
    (pages : List PdfPage)
    (hlook : lookupFS fs inputPath = some entry)
    (hdata : entry.data = FileContent.pdfFile pages) :
    ∃ e : FileEntry,
      compress_pdf pdfEncSize outputDirectory level fs inputPath =
        reportAfterWrite
          (writeFS fs (pathJoin outputDirectory ("compressed_" ++ basename inputPath)) e)
          inputPath (pathJoin outputDirectory ("compressed_" ++ basename inputPath)) := by
  simp only [compress_pdf, hlook, hdata]
  exact ⟨_, rfl⟩

/-- C8: for every successfully processed item of either handler, the
reported size reduction is `(1 - compressed / original) * 100` computed
from the on-disk byte sizes of the input file and of the output file
actually written, and when the output is larger the reported value is
negative and still logged as-is. -/
theorem C8_reported_reduction :
    (∀ (imgEncSize : Img → ImgFormat → Option Nat → Bool → Nat)
        (outputDirectory : String) (quality : Nat) (fs : FS) (inputPath : String)
        (entry : FileEntry) (img : Img) (c : Nat),
      lookupFS fs inputPath = some entry →
      entry.data = FileContent.imageFile img →
      pathJoin outputDirectory (computeImageOutputFilename inputPath) ≠ inputPath →
      0 < entry.size →
      getSize (compress_image imgEncSize outputDirectory quality fs inputPath).fs
          (pathJoin outputDirectory (computeImageOutputFilename inputPath)) = some c →
      (compress_image imgEncSize outputDirectory quality fs inputPath).success = true ∧
      (compress_image imgEncSize outputDirectory quality fs inputPath).reported =
        some ((1 - (c : ℚ) / (entry.size : ℚ)) * 100) ∧
      (entry.size < c → (1 - (c : ℚ) / (entry.size : ℚ)) * 100 < 0)) ∧
    (∀ (pdfEncSize : PdfWriterDoc → Nat) (outputDirectory : String) (level : Nat)
        (fs : FS) (inputPath : String) (entry : FileEntry) (pages : List PdfPage)
        (c : Nat),
      lookupFS fs inputPath = some entry →
      entry.data = FileContent.pdfFile pages →
      pathJoin outputDirectory ("compressed_" ++ basename inputPath) ≠ inputPath →
      0 < entry.size →
      getSize (compress_pdf pdfEncSize outputDirectory level fs inputPath).fs
          (pathJoin outputDirectory ("compressed_" ++ basename inputPath)) = some c →
      (compress_pdf pdfEncSize outputDirectory level fs inputPath).success = true ∧
      (compress_pdf pdfEncSize outputDirectory level fs inputPath).reported =
        some ((1 - (c : ℚ) / (entry.size : ℚ)) * 100) ∧
      (entry.size < c → (1 - (c : ℚ) / (entry.size : ℚ)) * 100 < 0)) := by
  constructor
  · intro imgEncSize outputDirectory quality fs inputPath entry img c
      hlook hdata hne hpos hc
    obtain ⟨e, heq⟩ := compress_image_write imgEncSize outputDirectory quality fs
      inputPath entry img hlook hdata
    rw [heq] at hc ⊢
    rw [reportAfterWrite_fs] at hc
    have ho : getSize
        (writeFS fs (pathJoin outputDirectory (computeImageOutputFilename inputPath)) e)
        inputPath = some entry.size := by
      rw [getSize_writeFS_other _ _ _ _ hne.symm]
      simp [getSize, hlook]
    rw [reportAfterWrite_pos _ _ _ entry.size c ho hc hpos]
    exact ⟨rfl, rfl, fun hlt => reduction_neg entry.size c hpos hlt⟩
  · intro pdfEncSize outputDirectory level fs inputPath entry pages c
      hlook hdata hne hpos hc
    obtain ⟨e, heq⟩ := compress_pdf_write pdfEncSize outputDirectory level fs
      inputPath entry pages hlook hdata
    rw [heq] at hc ⊢
    rw [reportAfterWrite_fs] at hc
    have ho : getSize
        (writeFS fs (pathJoin outputDirectory ("compressed_" ++ basename inputPath)) e)
        inputPath = some entry.size := by
      rw [getSize_writeFS_other _ _ _ _ hne.symm]
      simp [getSize, hlook]
    rw [reportAfterWrite_pos _ _ _ entry.size c ho hc hpos]
    exact ⟨rfl, rfl, fun hlt => reduction_neg entry.size c hpos hlt⟩

/-- Witness for C8: a 5-byte JPEG input whose re-encoded output is 9
bytes; the handler succeeds and reports the (negative) reduction
computed from those two sizes. -/
theorem C8_reported_reduction_witness :
    (compress_image (fun _ _ _ _ => 9) "/out" 80
        [("/in/a.jpg", (⟨5, FileContent.imageFile (Img.source 0 ImgMode.RGB)⟩ : FileEntry))]
        "/in/a.jpg").success = true ∧
    (compress_image (fun _ _ _ _ => 9) "/out" 80
        [("/in/a.jpg", (⟨5, FileContent.imageFile (Img.source 0 ImgMode.RGB)⟩ : FileEntry))]
        "/in/a.jpg").reported = some ((1 - (9 : ℚ) / ((5 : Nat) : ℚ)) * 100) ∧
    ((5 : Nat) < 9 → (1 - (9 : ℚ) / ((5 : Nat) : ℚ)) * 100 < 0) :=
  C8_reported_reduction.1 (fun _ _ _ _ => 9) "/out" 80
    [("/in/a.jpg", (⟨5, FileContent.imageFile (Img.source 0 ImgMode.RGB)⟩ : FileEntry))]
    "/in/a.jpg" ⟨5, FileContent.imageFile (Img.source 0 ImgMode.RGB)⟩
    (Img.source 0 ImgMode.RGB) 9 (by decide) rfl (by decide) (by decide) (by decide)

/-- C10: when the input file's on-disk size reads as zero at the final
size check, both handlers return failure even though the output file
was already written, and the written output file stays in the output
directory. -/
theorem C10_zero_size_input :
    (∀ (imgEncSize : Img → ImgFormat → Option Nat → Bool → Nat)
        (outputDirectory : String) (quality : Nat) (fs : FS) (inputPath : String)
        (entry : FileEntry) (img : Img),
      lookupFS fs inputPath = some entry →
      entry.data = FileContent.imageFile img →
      pathJoin outputDirectory (computeImageOutputFilename inputPath) ≠ inputPath →
      entry.size = 0 →
      (compress_image imgEncSize outputDirectory quality fs inputPath).success = false ∧
      (lookupFS (compress_image imgEncSize outputDirectory quality fs inputPath).fs
          (pathJoin outputDirectory (computeImageOutputFilename inputPath))).isSome =
        true) ∧
    (∀ (pdfEncSize : PdfWriterDoc → Nat) (outputDirectory : String) (level : Nat)
        (fs : FS) (inputPath : String) (entry : FileEntry) (pages : List PdfPage),
      lookupFS fs inputPath = some entry →
      entry.data = FileContent.pdfFile pages →
      pathJoin outputDirectory ("compressed_" ++ basename inputPath) ≠ inputPath →
      entry.size = 0 →
      (compress_pdf pdfEncSize outputDirectory level fs inputPath).success = false ∧
      (lookupFS (compress_pdf pdfEncSize outputDirectory level fs inputPath).fs
          (pathJoin outputDirectory ("compressed_" ++ basename inputPath))).isSome =
        true) := by
  constructor
  · intro imgEncSize outputDirectory quality fs inputPath entry img
      hlook hdata hne hsize
    obtain ⟨e, heq⟩ := compress_image_write imgEncSize outputDirectory quality fs
      inputPath entry img hlook hdata
    rw [heq]
    have ho : getSize
        (writeFS fs (pathJoin outputDirectory (computeImageOutputFilename inputPath)) e)
        inputPath = some 0 := by
      rw [getSize_writeFS_other _ _ _ _ hne.symm]
      simp [getSize, hlook, hsize]
    have hc := getSize_writeFS_self fs
      (pathJoin outputDirectory (computeImageOutputFilename inputPath)) e
    rw [reportAfterWrite_zero _ _ _ e.size ho hc]
    refine ⟨rfl, ?_⟩
    rw [lookupFS_writeFS_self]
    rfl
  · intro pdfEncSize outputDirectory level fs inputPath entry pages
      hlook hdata hne hsize
    obtain ⟨e, heq⟩ := compress_pdf_write pdfEncSize outputDirectory level fs
      inputPath entry pages hlook hdata
    rw [heq]
    have ho : getSize
        (writeFS fs (pathJoin outputDirectory ("compressed_" ++ basename inputPath)) e)
        inputPath = some 0 := by
      rw [getSize_writeFS_other _ _ _ _ hne.symm]
      simp [getSize, hlook, hsize]
    have hc := getSize_writeFS_self fs
      (pathJoin outputDirectory ("compressed_" ++ basename inputPath)) e
    rw [reportAfterWrite_zero _ _ _ e.size ho hc]
    refine ⟨rfl, ?_⟩
    rw [lookupFS_writeFS_self]
    rfl

/-- Witness for C10: a PDF whose reported input size is zero; the
handler fails yet the output file exists afterwards. -/
theorem C10_zero_size_input_witness :
    (compress_pdf (fun _ => 3) "/out" 1
        [("/in/z.pdf", (⟨0, FileContent.pdfFile [⟨1, false⟩]⟩ : FileEntry))]
        "/in/z.pdf").success = false ∧
    (lookupFS (compress_pdf (fun _ => 3) "/out" 1
        [("/in/z.pdf", (⟨0, FileContent.pdfFile [⟨1, false⟩]⟩ : FileEntry))]
        "/in/z.pdf").fs
        (pathJoin "/out" ("compressed_" ++ basename "/in/z.pdf"))).isSome = true :=
  C10_zero_size_input.2 (fun _ => 3) "/out" 1
    [("/in/z.pdf", (⟨0, FileContent.pdfFile [⟨1, false⟩]⟩ : FileEntry))]
    "/in/z.pdf" ⟨0, FileContent.pdfFile [⟨1, false⟩]⟩ [⟨1, false⟩]
    (by decide) rfl (by decide) rfl

/-- The division loop stops when its guard fails. -/
theorem fsLoop_stop (s : ℚ) (i : Nat) (h : ¬(1024 ≤ s ∧ i < 3)) :
    fsLoop s i = (s, i) := by
  rw [fsLoop]
  exact dif_neg h

/-- The division loop iterates when its guard holds. -/
theorem fsLoop_go (s : ℚ) (i : Nat) (h : 1024 ≤ s ∧ i < 3) :
    fsLoop s i = fsLoop (s / 1024) (i + 1) := by
  rw [fsLoop]
  exact dif_pos h

/-- Unit actually selected by the division loop of `format_file_size`
for a positive byte count: it agrees with the unit the specification
prescribes. -/
theorem fsLoop_unit (n : Nat) (hn : 0 < n) :
    sizeNames.getD (fsLoop ((n : ℚ)) 0).2 "" = specFileSizeUnit n := by
  have c0 : (0 : ℚ) < 1024 := by norm_num
  by_cases h1 : n < 1024
  · have hs : ¬((1024 : ℚ) ≤ (n : ℚ) ∧ (0 : Nat) < 3) := by
      rintro ⟨ha, _⟩
      have hcast : (1024 : ℕ) ≤ n := by exact_mod_cast ha
      omega
    rw [fsLoop_stop _ _ hs]
    simp [sizeNames, specFileSizeUnit, h1]
  · have ha1 : (1024 : ℚ) ≤ (n : ℚ) := by
      have := Nat.le_of_not_lt h1
      exact_mod_cast this
    rw [fsLoop_go _ _ ⟨ha1, by omega⟩]
    by_cases h2 : n < 1024 * 1024
    · have hs : ¬((1024 : ℚ) ≤ (n : ℚ) / 1024 ∧ (1 : Nat) < 3) := by
        rintro ⟨ha, _⟩
        rw [le_div_iff₀ c0] at ha
        have hcast : (1024 * 1024 : ℕ) ≤ n := by exact_mod_cast ha
        omega
      rw [fsLoop_stop _ _ hs]
      simp [sizeNames, specFileSizeUnit, h1, h2]
    · have ha2 : (1024 : ℚ) ≤ (n : ℚ) / 1024 := by
        rw [le_div_iff₀ c0]
        have := Nat.le_of_not_lt h2
        exact_mod_cast this
      rw [fsLoop_go _ _ ⟨ha2, by omega⟩]
      by_cases h3 : n < 1024 * 1024 * 1024
      · have hs : ¬((1024 : ℚ) ≤ (n : ℚ) / 1024 / 1024 ∧ (2 : Nat) < 3) := by
          rintro ⟨ha, _⟩
          rw [le_div_iff₀ c0, le_div_iff₀ c0] at ha
          have hcast : (1024 * 1024 * 1024 : ℕ) ≤ n := by exact_mod_cast ha
          omega
        rw [fsLoop_stop _ _ hs]
        simp [sizeNames, specFileSizeUnit, h1, h2, h3]
      · have ha3 : (1024 : ℚ) ≤ (n : ℚ) / 1024 / 1024 := by
          rw [le_div_iff₀ c0, le_div_iff₀ c0]
          have := Nat.le_of_not_lt h3
          exact_mod_cast this
        rw [fsLoop_go _ _ ⟨ha3, by omega⟩]
        have hs : ¬((1024 : ℚ) ≤ (n : ℚ) / 1024 / 1024 / 1024 ∧ (3 : Nat) < 3) := by
          rintro ⟨_, hi⟩
          omega
        rw [fsLoop_stop _ _ hs]
        simp [sizeNames, specFileSizeUnit, h1, h2, h3]

/-- C3: `format_file_size 0` is "0 B", and every positive byte count is
rendered with the unit B below 1024, and KB, MB, GB for each successive
factor of 1024, never advancing past GB. -/
theorem C3_format_file_size_units :
    format_file_size 0 = "0 B" ∧
    ∀ n : Nat, 0 < n →
      pyEndsWith (format_file_size n) (" " ++ specFileSizeUnit n) = true := by
  refine ⟨rfl, ?_⟩
  intro n hn
  unfold format_file_size
  rw [if_neg (by omega)]
  show pyEndsWith
    (formatOneDecimal (fsLoop ((n : ℚ)) 0).1 ++
      (" " ++ sizeNames.getD (fsLoop ((n : ℚ)) 0).2 "")) (" " ++ specFileSizeUnit n) = true
  rw [fsLoop_unit n hn]
  exact pyEndsWith_append _ _

/-- Witness for C3 at 2048 bytes (rendered in KB). -/
theorem C3_format_file_size_units_witness :
    (0 : Nat) < 2048 ∧
    pyEndsWith (format_file_size 2048) (" " ++ specFileSizeUnit 2048) = true :=
  ⟨by decide, C3_format_file_size_units.2 2048 (by decide)⟩
